import Mathlib

/-!
Verification of the avrocado schema-inference engine (`infer.go`).

The Go code walks a `reflect.Type` and builds a `TypedSchema` tree which is
then serialized with `encoding/json`.  We embed:

  * `Kind`      — the relevant values of `reflect.Kind`;
  * `GoType`    — type descriptors: the structural cases `inferSchema`
                  dispatches on (pointer, struct, slice, map) plus a `basic`
                  case carrying a bare kind for everything that reaches the
                  `default:` branch of the switch;
  * `GoField`   — a struct field: declared name, the result of parsing its
                  tag (the tag parser `structtag.Parse` is an external
                  library, so a field carries its parse result directly:
                  `.error msg` models a malformed tag), and the field's type;
  * `TypedSchema` / `SVal` — the Go `TypedSchema` struct; `SVal` models the
                  `interface\x7b\x7d` values stored in the exported `Type`,
                  `Items`, `Values` attributes (a Go nil interface is
                  `SVal.vNil`, which `encoding/json` renders as `null`);
  * `inferType`, `inferSchema`, `InferSchema` — direct translations of the
                  three Go functions;
  * `marshalSchema` — the `encoding/json` rendering of a `TypedSchema`,
                  with the struct's field order and `omitempty` behaviour.

Go errors are modelled as their message strings; `fmt.Errorf("c: %w", err)`
becomes `"c: " ++ err`.
-/

/-- The values of Go's `reflect.Kind` used by the code: the scalar kinds of
`inferType`'s switch, the composite kinds handled by `inferSchema`'s switch,
and the kinds that fall through to the unsupported-type error. -/
inductive Kind where
  | kString | kBool
  | kInt | kInt8 | kInt16 | kInt32 | kInt64
  | kUint | kUint8 | kUint16 | kUint32 | kUint64
  | kFloat32 | kFloat64
  | kPtr | kStruct | kSlice | kMap
  | kInvalid | kUintptr | kComplex64 | kComplex128
  | kArray | kChan | kFunc | kInterface | kUnsafePointer
deriving DecidableEq, Repr

/-- `reflect.Kind.String()` for the kinds above (used in error messages). -/
def kindStr : Kind → String
  | .kString => "string"
  | .kBool => "bool"
  | .kInt => "int"
  | .kInt8 => "int8"
  | .kInt16 => "int16"
  | .kInt32 => "int32"
  | .kInt64 => "int64"
  | .kUint => "uint"
  | .kUint8 => "uint8"
  | .kUint16 => "uint16"
  | .kUint32 => "uint32"
  | .kUint64 => "uint64"
  | .kFloat32 => "float32"
  | .kFloat64 => "float64"
  | .kPtr => "ptr"
  | .kStruct => "struct"
  | .kSlice => "slice"
  | .kMap => "map"
  | .kInvalid => "invalid"
  | .kUintptr => "uintptr"
  | .kComplex64 => "complex64"
  | .kComplex128 => "complex128"
  | .kArray => "array"
  | .kChan => "chan"
  | .kFunc => "func"
  | .kInterface => "interface"
  | .kUnsafePointer => "unsafe.Pointer"

/-- One parsed struct tag, as produced by the external `structtag` library:
`key:"name,opt1,opt2"` parses to key, associated name, and option list. -/
structure Tag where
  key : String
  name : String
  options : List String
deriving DecidableEq, Repr

/-- `structtag`'s `Tags.Get`: the first tag with the given key, if any
(Go returns an error when the key is absent; we use `Option`). -/
def tagsGet (tags : List Tag) (key : String) : Option Tag :=
  tags.find? (fun tg => tg.key == key)

mutual
/-- A Go type descriptor, restricted to what `inferSchema` inspects:
its `Name()` (empty for unnamed types such as `*T`, `[]T`, `map[K]V` and
anonymous structs), and its structural kind with the parts the walk uses. -/
inductive GoType where
  | ptr (name : String) (elem : GoType)
  | structT (name : String) (fields : List GoField)
  | slice (name : String) (elem : GoType)
  | mapT (name : String) (key : GoType) (elem : GoType)
  | basic (name : String) (kind : Kind)
deriving Repr

/-- A struct field: declared identifier, the result of `structtag.Parse` on
its tag (`.error msg` = malformed tag), and the field's own type. -/
inductive GoField where
  | mk (name : String) (tags : Except String (List Tag)) (typ : GoType)
deriving Repr
end

/-- `reflect.Type.Name()`. -/
def GoType.name : GoType → String
  | .ptr n _ => n
  | .structT n _ => n
  | .slice n _ => n
  | .mapT n _ _ => n
  | .basic n _ => n

/-- `reflect.Type.Kind()`. -/
def GoType.kindOf : GoType → Kind
  | .ptr _ _ => .kPtr
  | .structT _ _ => .kStruct
  | .slice _ _ => .kSlice
  | .mapT _ _ _ => .kMap
  | .basic _ k => k

def GoField.name : GoField → String
  | .mk n _ _ => n

def GoField.tags : GoField → Except String (List Tag)
  | .mk _ t _ => t

def GoField.typ : GoField → GoType
  | .mk _ _ t => t

mutual
/-- A value stored in one of the `interface\x7b\x7d`-typed attributes of the
Go `TypedSchema` struct: Go `nil`, a string, a nested schema node, or a
`[]interface\x7b\x7d` list. -/
inductive SVal where
  | vNil
  | vStr (s : String)
  | vNode (n : TypedSchema)
  | vList (xs : List SVal)
deriving Repr

/-- The Go `TypedSchema` struct.  `TypeJ`, `ItemsJ`, `ValuesJ` are the
exported (JSON-rendered) `Type`, `Items`, `Values` attributes; `types`,
`items`, `values` are the unexported working lists that the final block of
`inferSchema` collapses into them; `Fields` is the exported field list. -/
inductive TypedSchema where
  | mk (Name : String) (TypeJ : SVal) (types : List SVal) (items : List SVal)
       (ItemsJ : SVal) (values : List SVal) (ValuesJ : SVal)
       (Fields : List TypedSchema)
deriving Repr
end

/-- Whether an `interface\x7b\x7d` attribute holds the Go nil interface
(the emptiness test of `omitempty` for interface-typed attributes). -/
def SVal.isNilV : SVal → Bool
  | .vNil => true
  | _ => false

def TypedSchema.Name : TypedSchema → String
  | .mk n _ _ _ _ _ _ _ => n

def TypedSchema.TypeJ : TypedSchema → SVal
  | .mk _ t _ _ _ _ _ _ => t

def TypedSchema.types : TypedSchema → List SVal
  | .mk _ _ ts _ _ _ _ _ => ts

def TypedSchema.items : TypedSchema → List SVal
  | .mk _ _ _ its _ _ _ _ => its

def TypedSchema.ItemsJ : TypedSchema → SVal
  | .mk _ _ _ _ i _ _ _ => i

def TypedSchema.values : TypedSchema → List SVal
  | .mk _ _ _ _ _ vs _ _ => vs

def TypedSchema.ValuesJ : TypedSchema → SVal
  | .mk _ _ _ _ _ _ v _ => v

def TypedSchema.Fields : TypedSchema → List TypedSchema
  | .mk _ _ _ _ _ _ _ fs => fs

/-- Overwrite the `Name` attribute (the assignment `s.Fields[i].Name = name`). -/
def TypedSchema.setName : TypedSchema → String → TypedSchema
  | .mk _ t ts its i vs v fs, n => .mk n t ts its i vs v fs

/-- The collapsing block at the end of `inferSchema`: a one-element working
list becomes the bare element, a longer list stays a list, an empty list
leaves the attribute as Go `nil`. -/
def collapseList : List SVal → SVal
  | [] => .vNil
  | [x] => x
  | xs => .vList xs

/-- Build the returned node from name and working lists, applying the
collapsing block to `types`, `items` and `values`. -/
def finishNode (nm : String) (types items values : List SVal)
    (fields : List TypedSchema) : TypedSchema :=
  .mk nm (collapseList types) types items (collapseList items) values
    (collapseList values) fields

/-- Go `strings.Split` with the one-character separator `"|"`, on a char
list (Go's `Split` never returns an empty list: splitting `""` gives `[""]`). -/
def splitChars (sep : Char) (cs : List Char) : List (List Char) :=
  cs.foldr
    (fun c acc =>
      if c = sep then [] :: acc
      else
        match acc with
        | [] => [[c]]
        | g :: gs => (c :: g) :: gs)
    [[]]

/-- `strings.Split(s, "|")`. -/
def goSplitPipe (s : String) : List String :=
  (splitChars '|' s.toList).map (fun cs => String.mk cs)

/-- Whether the char list `p` starts the char list `s`. -/
def listStarts : List Char → List Char → Bool
  | [], _ => true
  | _ :: _, [] => false
  | p :: ps, c :: cs => p = c && listStarts ps cs

/-- Go `strings.HasPrefix(s, p)`. -/
def goStarts (s p : String) : Bool :=
  listStarts p.toList s.toList

/-- Drop the first `n` characters of `s` (the effect of Go
`strings.TrimPrefix` once the option's leading marker is known present). -/
def strDrop (s : String) (n : Nat) : String :=
  String.mk (s.toList.drop n)

/-- The `type=` option loop of the struct case: every `type=` option's
`|`-split token list is appended to the field's working `types`. -/
def collectTypes (opts : List String) : List String :=
  opts.foldl
    (fun acc opt =>
      if goStarts opt "type=" then acc ++ goSplitPipe (strDrop opt 5) else acc)
    []

/-- The `items=` / `values=` option loops: each matching option assigns the
`|`-split list, so the last one wins; `none` models the Go `nil` slice that
is passed when no option matched. -/
def collectOpt (marker : String) (opts : List String) : Option (List String) :=
  opts.foldl
    (fun acc opt =>
      if goStarts opt marker then some (goSplitPipe (strDrop opt marker.length))
      else acc)
    none

/-- Go `inferType`: the scalar-kind lookup table. -/
def inferType (t : GoType) : Except String String :=
  match t.kindOf with
  | .kString => .ok "string"
  | .kBool => .ok "boolean"
  | .kInt => .ok "int"
  | .kInt8 => .ok "int"
  | .kInt16 => .ok "int"
  | .kInt32 => .ok "int"
  | .kInt64 => .ok "int"
  | .kUint => .ok "long"
  | .kUint8 => .ok "long"
  | .kUint16 => .ok "long"
  | .kUint32 => .ok "long"
  | .kUint64 => .ok "long"
  | .kFloat32 => .ok "double"
  | .kFloat64 => .ok "double"
  | k => .error ("unsupported type: " ++ kindStr k)

mutual
/-- Go `inferSchema(fallbackTag string, t reflect.Type, items, values []string)`.
`itemsArg` / `valuesArg` model the `items` / `values` slice parameters
(`none` = Go `nil`). -/
def inferSchema (fb : String) (t : GoType)
    (itemsArg valuesArg : Option (List String)) : Except String TypedSchema :=
  match t with
  | .ptr nm elem =>
    match inferSchema fb elem none none with
    | .error e => .error ("ptr: " ++ e)
    | .ok typ => .ok (finishNode nm [SVal.vNode typ, SVal.vStr "null"] [] [] [])
  | .structT nm fs =>
    match inferFieldList fb fs with
    | .error e => .error e
    | .ok children => .ok (finishNode nm [SVal.vStr "record"] [] [] children)
  | .slice nm elem =>
    match itemsArg with
    | some xs =>
      .ok (finishNode nm [SVal.vStr "array"] (xs.map SVal.vStr) [] [])
    | none =>
      match inferSchema fb elem none none with
      | .error e => .error ("slice: " ++ e)
      | .ok typ => .ok (finishNode nm [SVal.vStr "array"] [SVal.vNode typ] [] [])
  | .mapT nm key elem =>
    if key.kindOf ≠ Kind.kString then .error "map key must be string"
    else
      match valuesArg with
      | some xs =>
        .ok (finishNode nm [SVal.vStr "map"] [] (xs.map SVal.vStr) [])
      | none =>
        match inferSchema fb elem none none with
        | .error e => .error ("map: " ++ e)
        | .ok typ => .ok (finishNode nm [SVal.vStr "map"] [] [SVal.vNode typ] [])
  | .basic nm k =>
    match inferType (GoType.basic nm k) with
    | .error e => .error ("default: " ++ e)
    | .ok p => .ok (finishNode nm [SVal.vStr p] [] [] [])

/-- The per-field body of the struct case's loop: parse result inspection,
name resolution, option collection, the `s.Fields[i].types == nil` check
deciding between recursion and the override stub, and the final
`s.Fields[i].Name = name` assignment. -/
def inferField (fb : String) (f : GoField) : Except String TypedSchema :=
  match f with
  | .mk fname ftags ftyp =>
    match ftags with
    | .error e => .error ("struct: " ++ e)
    | .ok tags =>
      match tagsGet tags "avro" with
      | some tg =>
        let typeTokens := collectTypes tg.options
        let fieldValues := collectOpt "values=" tg.options
        let fieldItems := collectOpt "items=" tg.options
        if typeTokens.isEmpty then
          match inferSchema fb ftyp fieldItems fieldValues with
          | .error e => .error ("struct: " ++ e)
          | .ok s => .ok (s.setName tg.name)
        else
          .ok (TypedSchema.mk tg.name SVal.vNil (typeTokens.map SVal.vStr) []
            SVal.vNil [] SVal.vNil [])
      | none =>
        let nm := match tagsGet tags fb with
          | some tg => tg.name
          | none => fname
        match inferSchema fb ftyp none none with
        | .error e => .error ("struct: " ++ e)
        | .ok s => .ok (s.setName nm)

/-- The struct case's loop over the declared fields, in declaration order. -/
def inferFieldList (fb : String) (fs : List GoField) :
    Except String (List TypedSchema) :=
  match fs with
  | [] => .ok []
  | f :: rest =>
    match inferField fb f with
    | .error e => .error e
    | .ok s =>
      match inferFieldList fb rest with
      | .error e => .error e
      | .ok ss => .ok (s :: ss)
end

/-- `encoding/json` escaping of one character inside a string literal, for
the character range appearing in this development (quote, backslash, the
common control characters; other characters render as themselves). -/
def escapeChar (c : Char) : String :=
  if c = '"' then "\\\""
  else if c = '\\' then "\\\\"
  else if c = '\n' then "\\n"
  else if c = '\t' then "\\t"
  else if c = '\r' then "\\r"
  else String.singleton c

/-- `encoding/json` rendering of a string value. -/
def jsonStr (s : String) : String :=
  "\"" ++ String.join (s.toList.map escapeChar) ++ "\""

mutual
/-- `encoding/json` rendering of an `interface\x7b\x7d` attribute value. -/
def marshalSVal : SVal → String
  | .vNil => "null"
  | .vStr s => jsonStr s
  | .vNode n => marshalSchema n
  | .vList xs => "[" ++ marshalSValList xs ++ "]"

def marshalSValList : List SVal → String
  | [] => ""
  | [x] => marshalSVal x
  | x :: xs => marshalSVal x ++ "," ++ marshalSValList xs

/-- `encoding/json` rendering of a `TypedSchema` node: attributes in struct
declaration order (`name`, `type`, `items`, `values`, `fields`); the
unexported working lists are skipped; `items`/`values` carry `omitempty`
and are dropped when the interface is nil; `fields` carries `omitempty`
and is dropped when the slice is empty; `name` and `type` are always
rendered (`type` as `null` when the interface is nil). -/
def marshalSchema : TypedSchema → String
  | .mk nm ty _ _ it _ va fs =>
    "\x7b\"name\":" ++ (jsonStr nm ++ (",\"type\":" ++ (marshalSVal ty ++
      ((if it.isNilV then "" else ",\"items\":" ++ marshalSVal it) ++
       ((if va.isNilV then "" else ",\"values\":" ++ marshalSVal va) ++
        ((if fs.isEmpty then ""
          else ",\"fields\":[" ++ marshalSchemaList fs ++ "]") ++ "\x7d"))))))

def marshalSchemaList : List TypedSchema → String
  | [] => ""
  | [x] => marshalSchema x
  | x :: xs => marshalSchema x ++ "," ++ marshalSchemaList xs
end

/-- Go `InferSchema(fallbackTag string, v interface\x7b\x7d)`: run the walk on
the value's type with nil override slices, wrap failures with
`"infer schema: "`, and JSON-marshal the result. -/
def InferSchema (fb : String) (t : GoType) : Except String String :=
  match inferSchema fb t none none with
  | .error e => .error ("infer schema: " ++ e)
  | .ok s => .ok (marshalSchema s)

/-! ## Claim C1

A struct field carrying a `type=x|y` option: the override tokens are
appended to the field node's unexported `types` list and structural
recursion into the field's type is skipped — but the node is never passed
through the collapsing block at the end of `inferSchema` (only nodes that
are the result of a recursive call are), so its exported `Type` attribute
stays the nil interface and `encoding/json` renders `"type":null`, not the
list containing x and y that the spec promises. -/

/-- C1 (code bug): for the record type
`struct \x7b X R \x60avro:"x,type=x|y"\x60 \x7d` with `R` a nested record, the
rendered schema of the overridden field is `\x7b"name":"x","type":null\x7d`:
recursion into `R` is skipped as claimed, but the rendered type is `null`,
not `["x","y"]`. -/
theorem c1_type_override_field_renders_null :
    InferSchema "avro" (GoType.structT "A"
      [GoField.mk "X"
        (.ok [Tag.mk "avro" "x" ["type=x|y"]])
        (GoType.structT "R" [GoField.mk "F" (.ok []) (GoType.basic "" Kind.kString)])]) =
    .ok "\x7b\"name\":\"A\",\"type\":\"record\",\"fields\":[\x7b\"name\":\"x\",\"type\":null\x7d]\x7d" :=
  rfl

/-! ## Claim C2

The pointer case sets the node's `Name` from `t.Name()` where `t` is the
pointer type itself, before recursing into the pointee; for the unnamed
pointer type `*T` that name is the empty string, not `T`'s name. -/

/-- C2 (counterexample): inferring the unnamed pointer type `*T`, with `T`
a named string type, yields a node whose name is `""`, not the pointee's
name `"T"` — refuting the claim that the wrapping node's name is the
pointee type's name. -/
theorem c2_ptr_name_counterexample :
    (inferSchema "avro" (GoType.ptr "" (GoType.basic "T" Kind.kString))
        none none).map TypedSchema.Name = .ok "" ∧
    ("" : String) ≠ (GoType.basic "T" Kind.kString).name :=
  ⟨rfl, by decide⟩

/-- C2 (amended): for every type `T`, inferring the pointer type `*T`
produces a node whose type is the two-element union
`[inferred(T), "null"]` in that order, and whose name is the pointer
type's own reflect name — which is empty for an unnamed pointer type such
as `*T` — not the pointee type's name. -/
theorem c2_ptr_union_amended (fb nm : String) (elem : GoType)
    (ia va : Option (List String)) (inner : TypedSchema)
    (h : inferSchema fb elem none none = .ok inner) :
    inferSchema fb (GoType.ptr nm elem) ia va =
      .ok (TypedSchema.mk nm (SVal.vList [SVal.vNode inner, SVal.vStr "null"])
        [SVal.vNode inner, SVal.vStr "null"] [] SVal.vNil [] SVal.vNil []) := by
  simp [inferSchema, h, finishNode, collapseList]

/-- C2 (witness): the amended pointer rule evaluated at `*T` for a named
string type `T`. -/
theorem c2_ptr_union_amended_witness :
    inferSchema "avro" (GoType.ptr "" (GoType.basic "T" Kind.kString)) none none =
      .ok (TypedSchema.mk ""
        (SVal.vList [SVal.vNode (TypedSchema.mk "T" (SVal.vStr "string")
          [SVal.vStr "string"] [] SVal.vNil [] SVal.vNil []), SVal.vStr "null"])
        [SVal.vNode (TypedSchema.mk "T" (SVal.vStr "string")
          [SVal.vStr "string"] [] SVal.vNil [] SVal.vNil []), SVal.vStr "null"]
        [] SVal.vNil [] SVal.vNil []) :=
  c2_ptr_union_amended "avro" "" (GoType.basic "T" Kind.kString) none none
    (TypedSchema.mk "T" (SVal.vStr "string") [SVal.vStr "string"] [] SVal.vNil
      [] SVal.vNil []) rfl

/-! ## Claim C4

The map case checks the key kind before consulting the inherited `values`
override, so a non-string key always fails with the `InvalidMapKey` error,
for every value type and even when a `values=` override list was
supplied; the top-level entry point then returns the error (wrapped with
`"infer schema: "`) and no schema text. -/

/-- C4: for every map-like type whose key kind is not string, `inferSchema`
fails with the invalid-map-key error — for every value type, every
fallback key, and every inherited override (including a supplied `values`
list) — and the public entry point returns the wrapped error and no
schema text. -/
theorem c4_invalid_map_key (fb nm : String) (key elem : GoType)
    (ia va : Option (List String)) (h : key.kindOf ≠ Kind.kString) :
    inferSchema fb (GoType.mapT nm key elem) ia va = .error "map key must be string" ∧
    InferSchema fb (GoType.mapT nm key elem) =
      .error ("infer schema: " ++ "map key must be string") := by
  refine ⟨?_, ?_⟩
  · simp [inferSchema, h]
  · simp [InferSchema, inferSchema, h]

/-- C4 (witness): a map keyed by `int`, with a `values` override supplied,
still fails with the invalid-map-key error and yields no schema text. -/
theorem c4_invalid_map_key_witness :
    inferSchema "avro" (GoType.mapT "" (GoType.basic "" Kind.kInt)
        (GoType.basic "" Kind.kBool)) none (some ["a", "b"]) =
      .error "map key must be string" ∧
    InferSchema "avro" (GoType.mapT "" (GoType.basic "" Kind.kInt)
        (GoType.basic "" Kind.kBool)) =
      .error ("infer schema: " ++ "map key must be string") :=
  c4_invalid_map_key "avro" "" (GoType.basic "" Kind.kInt)
    (GoType.basic "" Kind.kBool) none (some ["a", "b"]) (by decide)

/-! ## Claim C5

The scalar lookup table of `inferType`. -/

/-- C5: for every type whose kind is in the scalar table, `inferType`
returns exactly the mapped primitive name (string, boolean, int for every
signed width, long for every unsigned width, double for every float
width); for every type whose kind is outside the table it fails with the
unsupported-type error naming that kind. -/
theorem c5_scalar_table (t : GoType) :
    (t.kindOf = Kind.kString → inferType t = .ok "string") ∧
    (t.kindOf = Kind.kBool → inferType t = .ok "boolean") ∧
    (t.kindOf ∈ [Kind.kInt, Kind.kInt8, Kind.kInt16, Kind.kInt32, Kind.kInt64] →
      inferType t = .ok "int") ∧
    (t.kindOf ∈ [Kind.kUint, Kind.kUint8, Kind.kUint16, Kind.kUint32, Kind.kUint64] →
      inferType t = .ok "long") ∧
    (t.kindOf ∈ [Kind.kFloat32, Kind.kFloat64] → inferType t = .ok "double") ∧
    (t.kindOf ∉ [Kind.kString, Kind.kBool,
        Kind.kInt, Kind.kInt8, Kind.kInt16, Kind.kInt32, Kind.kInt64,
        Kind.kUint, Kind.kUint8, Kind.kUint16, Kind.kUint32, Kind.kUint64,
        Kind.kFloat32, Kind.kFloat64] →
      inferType t = .error ("unsupported type: " ++ kindStr t.kindOf)) := by
  cases h : t.kindOf <;> simp [inferType, h]

/-- C5 (witness): the table evaluated at a signed width, an unsigned
width, and a kind outside the table. -/
theorem c5_scalar_table_witness :
    inferType (GoType.basic "" Kind.kInt16) = .ok "int" ∧
    inferType (GoType.basic "" Kind.kUint32) = .ok "long" ∧
    inferType (GoType.basic "" Kind.kChan) =
      .error ("unsupported type: " ++ kindStr Kind.kChan) :=
  ⟨(c5_scalar_table (GoType.basic "" Kind.kInt16)).2.2.1 (by decide),
   (c5_scalar_table (GoType.basic "" Kind.kUint32)).2.2.2.1 (by decide),
   (c5_scalar_table (GoType.basic "" Kind.kChan)).2.2.2.2.2 (by decide)⟩

/-! ## Claim C7

Inherited `items` / `values` override lists terminate recursion: the
slice case uses the supplied token list verbatim without inferring the
element type, and the map case (after the string-key check) does the same
with a supplied `values` list.  The first conjunct takes the full route
through a struct field annotated `items=string|null`; both conjuncts
quantify over the element type, so the equations hold even for element
types whose own inference would fail — recursion never happens. -/

/-- C7: a sequence-like field annotated `items=string|null` infers a node
with bare type `"array"` and items exactly `["string","null"]`, for every
declared element type (which is never recursed into); symmetrically a
string-keyed map given an inherited `values` override uses the tokens
verbatim, for every value type. -/
theorem c7_items_values_override (fb fName tagName nm snm mnm : String)
    (elem melem key : GoType) (ia va : Option (List String)) (vs : List String)
    (hkey : key.kindOf = Kind.kString) :
    inferSchema fb (GoType.structT nm
        [GoField.mk fName (.ok [Tag.mk "avro" tagName ["items=string|null"]])
          (GoType.slice snm elem)]) ia va =
      .ok (TypedSchema.mk nm (SVal.vStr "record") [SVal.vStr "record"] []
        SVal.vNil [] SVal.vNil
        [TypedSchema.mk tagName (SVal.vStr "array") [SVal.vStr "array"]
          [SVal.vStr "string", SVal.vStr "null"]
          (SVal.vList [SVal.vStr "string", SVal.vStr "null"]) [] SVal.vNil []]) ∧
    inferSchema fb (GoType.mapT mnm key melem) ia (some vs) =
      .ok (TypedSchema.mk mnm (SVal.vStr "map") [SVal.vStr "map"] [] SVal.vNil
        (vs.map SVal.vStr) (collapseList (vs.map SVal.vStr)) []) := by
  refine ⟨rfl, ?_⟩
  simp [inferSchema, hkey, finishNode, collapseList]

/-- C7 (witness): the override rules evaluated on a slice of `int` (whose
element type is ignored) and a string-keyed map of `bool` with an
inherited two-token `values` list. -/
theorem c7_items_values_override_witness :
    inferSchema "avro" (GoType.structT "A"
        [GoField.mk "X" (.ok [Tag.mk "avro" "x" ["items=string|null"]])
          (GoType.slice "" (GoType.basic "" Kind.kInt))]) none none =
      .ok (TypedSchema.mk "A" (SVal.vStr "record") [SVal.vStr "record"] []
        SVal.vNil [] SVal.vNil
        [TypedSchema.mk "x" (SVal.vStr "array") [SVal.vStr "array"]
          [SVal.vStr "string", SVal.vStr "null"]
          (SVal.vList [SVal.vStr "string", SVal.vStr "null"]) [] SVal.vNil []]) ∧
    inferSchema "avro" (GoType.mapT "" (GoType.basic "" Kind.kString)
        (GoType.basic "" Kind.kBool)) none (some ["a", "b"]) =
      .ok (TypedSchema.mk "" (SVal.vStr "map") [SVal.vStr "map"] [] SVal.vNil
        [SVal.vStr "a", SVal.vStr "b"]
        (collapseList [SVal.vStr "a", SVal.vStr "b"]) []) :=
  c7_items_values_override "avro" "X" "x" "A" "" ""
    (GoType.basic "" Kind.kInt) (GoType.basic "" Kind.kBool)
    (GoType.basic "" Kind.kString) none none ["a", "b"] rfl

/-! ## Claim C8

The collapsing block runs only on the node a call of `inferSchema`
returns.  A field node produced by a `type=` override stub is placed into
`Fields` without ever being the result of such a call, so its two-element
`types` list is never collapsed into the exported `Type`, which stays nil
and renders as `null` — refuting the claim for that node.  For every node
that is the result of an `inferSchema` call the rule does hold. -/

/-- C8 (counterexample): inference on a struct with the field
`X []int \x60avro:"x,type=x|y"\x60` yields a field node whose unexported
`types` list has two elements, yet whose rendering is
`\x7b"name":"x","type":null\x7d` — a length-two list rendered as `null`,
not as a list, refuting the claim as stated. -/
theorem c8_collapse_counterexample :
    inferSchema "avro" (GoType.structT "A"
        [GoField.mk "X" (.ok [Tag.mk "avro" "x" ["type=x|y"]])
          (GoType.slice "" (GoType.basic "" Kind.kInt))]) none none =
      .ok (TypedSchema.mk "A" (SVal.vStr "record") [SVal.vStr "record"] []
        SVal.vNil [] SVal.vNil
        [TypedSchema.mk "x" SVal.vNil [SVal.vStr "x", SVal.vStr "y"] []
          SVal.vNil [] SVal.vNil []]) ∧
    (TypedSchema.mk "x" SVal.vNil [SVal.vStr "x", SVal.vStr "y"] []
        SVal.vNil [] SVal.vNil []).types.length = 2 ∧
    marshalSchema (TypedSchema.mk "x" SVal.vNil [SVal.vStr "x", SVal.vStr "y"]
        [] SVal.vNil [] SVal.vNil []) = "\x7b\"name\":\"x\",\"type\":null\x7d" :=
  ⟨rfl, rfl, rfl⟩

/-- C8 (amended): for every node that is returned by a call of
`inferSchema` (the claim as stated additionally covered the `type=`
override field stubs, which never pass through the collapsing block), the
exported `Type`, `Items` and `Values` attributes are the collapse of the
corresponding working lists — a one-element list becomes the bare
element, a longer list stays a list, and an empty list leaves the
attribute nil, which the renderer omits for `items` and `values`; the
returned node's type union is moreover never empty. -/
theorem c8_collapse_amended (fb : String) (t : GoType)
    (ia va : Option (List String)) (s : TypedSchema)
    (h : inferSchema fb t ia va = .ok s) :
    s.TypeJ = collapseList s.types ∧ s.ItemsJ = collapseList s.items ∧
    s.ValuesJ = collapseList s.values ∧ s.types ≠ [] := by
  cases t with
  | ptr nm elem =>
    rw [inferSchema] at h
    cases hrec : inferSchema fb elem none none <;> rw [hrec] at h <;>
      simp only [Except.ok.injEq, reduceCtorEq] at h
    subst h
    simp [finishNode, TypedSchema.TypeJ, TypedSchema.types, TypedSchema.items,
      TypedSchema.ItemsJ, TypedSchema.values, TypedSchema.ValuesJ]
  | structT nm fs =>
    rw [inferSchema] at h
    cases hrec : inferFieldList fb fs <;> rw [hrec] at h <;>
      simp only [Except.ok.injEq, reduceCtorEq] at h
    subst h
    simp [finishNode, TypedSchema.TypeJ, TypedSchema.types, TypedSchema.items,
      TypedSchema.ItemsJ, TypedSchema.values, TypedSchema.ValuesJ]
  | slice nm elem =>
    cases ia with
    | some xs =>
      rw [inferSchema] at h
      simp only [Except.ok.injEq] at h
      subst h
      simp [finishNode, TypedSchema.TypeJ, TypedSchema.types, TypedSchema.items,
        TypedSchema.ItemsJ, TypedSchema.values, TypedSchema.ValuesJ]
    | none =>
      rw [inferSchema] at h
      cases hrec : inferSchema fb elem none none <;> rw [hrec] at h <;>
        simp only [Except.ok.injEq, reduceCtorEq] at h
      subst h
      simp [finishNode, TypedSchema.TypeJ, TypedSchema.types, TypedSchema.items,
        TypedSchema.ItemsJ, TypedSchema.values, TypedSchema.ValuesJ]
  | mapT nm key elem =>
    rw [inferSchema.eq_def] at h
    by_cases hk : key.kindOf = Kind.kString
    · simp only [hk, ne_eq, not_true_eq_false, if_false, ite_false] at h
      cases va with
      | some xs =>
        simp only [Except.ok.injEq] at h
        subst h
        simp [finishNode, TypedSchema.TypeJ, TypedSchema.types, TypedSchema.items,
          TypedSchema.ItemsJ, TypedSchema.values, TypedSchema.ValuesJ]
      | none =>
        cases hrec : inferSchema fb elem none none <;> rw [hrec] at h <;>
          simp only [Except.ok.injEq, reduceCtorEq] at h
        subst h
        simp [finishNode, TypedSchema.TypeJ, TypedSchema.types, TypedSchema.items,
          TypedSchema.ItemsJ, TypedSchema.values, TypedSchema.ValuesJ]
    · simp [hk] at h
  | basic nm k =>
    rw [inferSchema] at h
    cases hrec : inferType (GoType.basic nm k) <;> rw [hrec] at h <;>
      simp only [Except.ok.injEq, reduceCtorEq] at h
    subst h
    simp [finishNode, TypedSchema.TypeJ, TypedSchema.types, TypedSchema.items,
      TypedSchema.ItemsJ, TypedSchema.values, TypedSchema.ValuesJ]

/-- C8 (witness): the amended collapsing rule evaluated at a slice of
strings: a one-element `items` list collapses to the bare inner node and
the empty `values` list leaves `Values` nil. -/
theorem c8_collapse_amended_witness :
    (TypedSchema.mk "" (SVal.vStr "array") [SVal.vStr "array"]
        [SVal.vNode (TypedSchema.mk "" (SVal.vStr "string") [SVal.vStr "string"]
          [] SVal.vNil [] SVal.vNil [])]
        (SVal.vNode (TypedSchema.mk "" (SVal.vStr "string") [SVal.vStr "string"]
          [] SVal.vNil [] SVal.vNil [])) [] SVal.vNil []).TypeJ =
      collapseList (TypedSchema.mk "" (SVal.vStr "array") [SVal.vStr "array"]
        [SVal.vNode (TypedSchema.mk "" (SVal.vStr "string") [SVal.vStr "string"]
          [] SVal.vNil [] SVal.vNil [])]
        (SVal.vNode (TypedSchema.mk "" (SVal.vStr "string") [SVal.vStr "string"]
          [] SVal.vNil [] SVal.vNil [])) [] SVal.vNil []).types ∧
    (TypedSchema.mk "" (SVal.vStr "array") [SVal.vStr "array"]
        [SVal.vNode (TypedSchema.mk "" (SVal.vStr "string") [SVal.vStr "string"]
          [] SVal.vNil [] SVal.vNil [])]
        (SVal.vNode (TypedSchema.mk "" (SVal.vStr "string") [SVal.vStr "string"]
          [] SVal.vNil [] SVal.vNil [])) [] SVal.vNil []).ItemsJ =
      collapseList (TypedSchema.mk "" (SVal.vStr "array") [SVal.vStr "array"]
        [SVal.vNode (TypedSchema.mk "" (SVal.vStr "string") [SVal.vStr "string"]
          [] SVal.vNil [] SVal.vNil [])]
        (SVal.vNode (TypedSchema.mk "" (SVal.vStr "string") [SVal.vStr "string"]
          [] SVal.vNil [] SVal.vNil [])) [] SVal.vNil []).items ∧
    (TypedSchema.mk "" (SVal.vStr "array") [SVal.vStr "array"]
        [SVal.vNode (TypedSchema.mk "" (SVal.vStr "string") [SVal.vStr "string"]
          [] SVal.vNil [] SVal.vNil [])]
        (SVal.vNode (TypedSchema.mk "" (SVal.vStr "string") [SVal.vStr "string"]
          [] SVal.vNil [] SVal.vNil [])) [] SVal.vNil []).ValuesJ =
      collapseList (TypedSchema.mk "" (SVal.vStr "array") [SVal.vStr "array"]
        [SVal.vNode (TypedSchema.mk "" (SVal.vStr "string") [SVal.vStr "string"]
          [] SVal.vNil [] SVal.vNil [])]
        (SVal.vNode (TypedSchema.mk "" (SVal.vStr "string") [SVal.vStr "string"]
          [] SVal.vNil [] SVal.vNil [])) [] SVal.vNil []).values ∧
    (TypedSchema.mk "" (SVal.vStr "array") [SVal.vStr "array"]
        [SVal.vNode (TypedSchema.mk "" (SVal.vStr "string") [SVal.vStr "string"]
          [] SVal.vNil [] SVal.vNil [])]
        (SVal.vNode (TypedSchema.mk "" (SVal.vStr "string") [SVal.vStr "string"]
          [] SVal.vNil [] SVal.vNil [])) [] SVal.vNil []).types ≠ [] :=
  c8_collapse_amended "avro" (GoType.slice "" (GoType.basic "" Kind.kString))
    none none _ rfl

/-! ## Claim C3

Error wrapping.  The recursive cases wrap propagated errors with a case
marker (`ptr: `, `struct: `, `slice: `, `map: `, `default: `), and the tag
parse failure and the unsupported-kind failure are generated already
wrapped — but the non-string-map-key error is returned from the map case
bare, with no `map: ` marker (it only receives the top-level
`infer schema: ` wrap), refuting the claim's universal statement and its
map-key instance. -/

/-- Helper: every error produced by `inferField` carries the `struct: `
marker. -/
theorem inferField_error_marked (fb : String) (f : GoField) (e : String)
    (h : inferField fb f = .error e) : ∃ r, e = "struct: " ++ r := by
  cases f with
  | mk fname ftags ftyp =>
    rw [inferField.eq_def] at h
    dsimp only at h
    cases ftags with
    | error pe =>
      simp only [Except.error.injEq] at h
      exact ⟨pe, h.symm⟩
    | ok tags =>
      cases htg : tagsGet tags "avro" with
      | some tg =>
        simp only [htg] at h
        by_cases hemp : (collectTypes tg.options).isEmpty
        · simp only [hemp, if_true] at h
          cases hrec : inferSchema fb ftyp (collectOpt "items=" tg.options)
              (collectOpt "values=" tg.options) with
          | error er =>
            simp only [hrec, Except.error.injEq] at h
            exact ⟨er, h.symm⟩
          | ok s => simp only [hrec, reduceCtorEq] at h
        · simp only [hemp, Bool.false_eq_true, if_false, reduceCtorEq] at h
      | none =>
        simp only [htg] at h
        cases hrec : inferSchema fb ftyp none none with
        | error er =>
          simp only [hrec, Except.error.injEq] at h
          exact ⟨er, h.symm⟩
        | ok s => simp only [hrec, reduceCtorEq] at h

/-- Helper: every error produced by the struct case's field loop carries
the `struct: ` marker. -/
theorem inferFieldList_error_marked (fb : String) (fs : List GoField) (e : String)
    (h : inferFieldList fb fs = .error e) : ∃ r, e = "struct: " ++ r := by
  induction fs with
  | nil => rw [inferFieldList] at h; simp at h
  | cons f rest ih =>
    rw [inferFieldList] at h
    cases hf : inferField fb f with
    | error ef =>
      rw [hf] at h
      simp only [Except.error.injEq] at h
      subst h
      exact inferField_error_marked fb f ef hf
    | ok s =>
      rw [hf] at h
      cases hr : inferFieldList fb rest with
      | error er =>
        rw [hr] at h
        simp only [Except.error.injEq] at h
        subst h
        exact ih hr
      | ok ss => rw [hr] at h; simp at h

/-- C3 (counterexample): inferring `map[int]int` fails with the bare
message `"map key must be string"`, which does not start with the
map-case marker (nor any other case marker); the top level only adds
`"infer schema: "`.  This refutes the claim that every error — in
particular the non-string-map-key failure — is wrapped with the marker of
the structural case it occurred in. -/
theorem c3_map_key_error_unmarked_counterexample :
    inferSchema "avro" (GoType.mapT "" (GoType.basic "" Kind.kInt)
        (GoType.basic "" Kind.kInt)) none none =
      .error "map key must be string" ∧
    goStarts "map key must be string" "map: " = false ∧
    goStarts "map key must be string" "ptr: " = false ∧
    goStarts "map key must be string" "struct: " = false ∧
    goStarts "map key must be string" "slice: " = false ∧
    goStarts "map key must be string" "default: " = false ∧
    InferSchema "avro" (GoType.mapT "" (GoType.basic "" Kind.kInt)
        (GoType.basic "" Kind.kInt)) =
      .error "infer schema: map key must be string" :=
  ⟨rfl, rfl, rfl, rfl, rfl, rfl, rfl⟩

/-- C3 (amended): every error returned by `inferSchema` either carries one
of the five structural case markers (`ptr: `, `struct: `, `slice: `,
`map: `, `default: `) — this covers all errors that propagate out of a
recursive call, the tag parse failure and the unsupported-kind failure —
or it is exactly the bare non-string-map-key error, which is returned
without a marker. -/
theorem c3_error_context_amended (fb : String) (t : GoType)
    (ia va : Option (List String)) (e : String)
    (h : inferSchema fb t ia va = .error e) :
    (∃ r, e = "ptr: " ++ r) ∨ (∃ r, e = "struct: " ++ r) ∨
    (∃ r, e = "slice: " ++ r) ∨ (∃ r, e = "map: " ++ r) ∨
    (∃ r, e = "default: " ++ r) ∨ e = "map key must be string" := by
  cases t with
  | ptr nm elem =>
    rw [inferSchema] at h
    cases hrec : inferSchema fb elem none none <;> rw [hrec] at h <;>
      simp only [Except.error.injEq, reduceCtorEq] at h
    exact Or.inl ⟨_, h.symm⟩
  | structT nm fs =>
    rw [inferSchema] at h
    cases hrec : inferFieldList fb fs <;> rw [hrec] at h <;>
      simp only [Except.error.injEq, reduceCtorEq] at h
    subst h
    exact Or.inr (Or.inl (inferFieldList_error_marked fb fs _ hrec))
  | slice nm elem =>
    cases ia with
    | some xs => rw [inferSchema] at h; simp at h
    | none =>
      rw [inferSchema] at h
      cases hrec : inferSchema fb elem none none <;> rw [hrec] at h <;>
        simp only [Except.error.injEq, reduceCtorEq] at h
      exact Or.inr (Or.inr (Or.inl ⟨_, h.symm⟩))
  | mapT nm key elem =>
    rw [inferSchema.eq_def] at h
    by_cases hk : key.kindOf = Kind.kString
    · simp only [hk, ne_eq, not_true_eq_false, if_false, ite_false] at h
      cases va with
      | some xs => simp at h
      | none =>
        cases hrec : inferSchema fb elem none none <;> rw [hrec] at h <;>
          simp only [Except.error.injEq, reduceCtorEq] at h
        exact Or.inr (Or.inr (Or.inr (Or.inl ⟨_, h.symm⟩)))
    · simp only [hk, ne_eq, not_false_eq_true, if_true, ite_true,
        Except.error.injEq] at h
      exact Or.inr (Or.inr (Or.inr (Or.inr (Or.inr h.symm))))
  | basic nm k =>
    rw [inferSchema] at h
    cases hrec : inferType (GoType.basic nm k) <;> rw [hrec] at h <;>
      simp only [Except.error.injEq, reduceCtorEq] at h
    exact Or.inr (Or.inr (Or.inr (Or.inr (Or.inl ⟨_, h.symm⟩))))

/-- C3 (witness): the amended wrapping rule evaluated at an unsupported
scalar kind, whose error carries the `default: ` marker. -/
theorem c3_error_context_amended_witness :
    (∃ r, "default: unsupported type: chan" = "ptr: " ++ r) ∨
    (∃ r, "default: unsupported type: chan" = "struct: " ++ r) ∨
    (∃ r, "default: unsupported type: chan" = "slice: " ++ r) ∨
    (∃ r, "default: unsupported type: chan" = "map: " ++ r) ∨
    (∃ r, "default: unsupported type: chan" = "default: " ++ r) ∨
    "default: unsupported type: chan" = "map key must be string" :=
  c3_error_context_amended "avro" (GoType.basic "" Kind.kChan) none none _ rfl

/-! ## Claim C6

Field-name resolution.  The struct case computes the field's name with
precedence canonical key `avro` > caller-supplied fallback key > declared
identifier, and assigns it to the field node after (and regardless of)
recursion, so it overwrites whatever name the recursive call produced
(the nested type's own reflect name). -/

/-- The name-resolution precedence of the struct case: the canonical
`avro` tag's name if present, else the fallback tag's name if present,
else the field's declared identifier. -/
def resolveFieldName (fb : String) (f : GoField) : String :=
  match f.tags with
  | .error _ => f.name
  | .ok tags =>
    match tagsGet tags "avro" with
    | some tg => tg.name
    | none =>
      match tagsGet tags fb with
      | some tg => tg.name
      | none => f.name

/-- Helper: `setName` overwrites the `Name` attribute. -/
theorem setName_Name (s : TypedSchema) (n : String) : (s.setName n).Name = n := by
  cases s
  rfl

/-- Helper: a successful `inferField` names its node by the resolution
precedence, whatever name the recursive inference (if any) produced. -/
theorem inferField_name (fb : String) (f : GoField) (s : TypedSchema)
    (h : inferField fb f = .ok s) : s.Name = resolveFieldName fb f := by
  cases f with
  | mk fname ftags ftyp =>
    rw [inferField.eq_def] at h
    dsimp only at h
    cases ftags with
    | error pe => simp at h
    | ok tags =>
      cases htg : tagsGet tags "avro" with
      | some tg =>
        simp only [htg] at h
        by_cases hemp : (collectTypes tg.options).isEmpty
        · simp only [hemp, if_true] at h
          cases hrec : inferSchema fb ftyp (collectOpt "items=" tg.options)
              (collectOpt "values=" tg.options) with
          | error er => simp only [hrec, reduceCtorEq] at h
          | ok s0 =>
            simp only [hrec, Except.ok.injEq] at h
            subst h
            simp [setName_Name, resolveFieldName, GoField.tags, htg]
        · simp only [hemp, Bool.false_eq_true, if_false, Except.ok.injEq] at h
          subst h
          simp [TypedSchema.Name, resolveFieldName, GoField.tags, htg]
      | none =>
        simp only [htg] at h
        cases hrec : inferSchema fb ftyp none none with
        | error er => simp only [hrec, reduceCtorEq] at h
        | ok s0 =>
          simp only [hrec, Except.ok.injEq] at h
          subst h
          simp [setName_Name, resolveFieldName, GoField.tags, GoField.name, htg]

/-- Helper: the struct case's loop produces one node per declared field,
in order, each named by the resolution precedence. -/
theorem inferFieldList_names (fb : String) (fs : List GoField)
    (l : List TypedSchema) (h : inferFieldList fb fs = .ok l) :
    l.map TypedSchema.Name = fs.map (resolveFieldName fb) := by
  induction fs generalizing l with
  | nil =>
    rw [inferFieldList] at h
    simp only [Except.ok.injEq] at h
    subst h
    rfl
  | cons f rest ih =>
    rw [inferFieldList] at h
    cases hf : inferField fb f with
    | error ef => rw [hf] at h; simp at h
    | ok s =>
      rw [hf] at h
      cases hr : inferFieldList fb rest with
      | error er => rw [hr] at h; simp at h
      | ok ss =>
        rw [hr] at h
        simp only [Except.ok.injEq] at h
        subst h
        simp only [List.map_cons]
        rw [inferField_name fb f s hf, ih ss hr]

/-- C6: for every struct type that infers successfully, the field nodes
are named, in declaration order, by the precedence canonical-`avro`-tag
name > fallback-tag name > declared field identifier; the resolved name
overwrites whatever name the recursive inference of the field's own type
produced (that node's reflect type name), and is also set on `type=`
override stubs. -/
theorem c6_field_name_resolution (fb nm : String) (fs : List GoField)
    (ia va : Option (List String)) (s : TypedSchema)
    (h : inferSchema fb (GoType.structT nm fs) ia va = .ok s) :
    s.Fields.map TypedSchema.Name = fs.map (resolveFieldName fb) := by
  rw [inferSchema] at h
  cases hrec : inferFieldList fb fs <;> rw [hrec] at h <;>
    simp only [Except.ok.injEq, reduceCtorEq] at h
  subst h
  simpa [finishNode, TypedSchema.Fields] using inferFieldList_names fb fs _ hrec

/-- C6 (witness): a field declared `B`, tagged both `json:"jb"` and
`avro:"ab"`, inferred with fallback key `json`: the canonical tag's name
`ab` wins and overwrites the name produced by recursion (the field type's
empty reflect name). -/
theorem c6_field_name_resolution_witness :
    (TypedSchema.mk "A" (SVal.vStr "record") [SVal.vStr "record"] [] SVal.vNil
        [] SVal.vNil
        [TypedSchema.mk "ab" (SVal.vStr "string") [SVal.vStr "string"] []
          SVal.vNil [] SVal.vNil []]).Fields.map TypedSchema.Name =
      [GoField.mk "B" (.ok [Tag.mk "json" "jb" [], Tag.mk "avro" "ab" []])
        (GoType.basic "" Kind.kString)].map (resolveFieldName "json") :=
  c6_field_name_resolution "json" "A"
    [GoField.mk "B" (.ok [Tag.mk "json" "jb" [], Tag.mk "avro" "ab" []])
      (GoType.basic "" Kind.kString)] none none _ rfl

/-! ## Claim C9

The public entry point passes the fallback key through unchanged (the
current `inferSchema` consults it only in `tags.Get(fallbackTag)`, and
only after the canonical `avro` lookup failed).  A parsed tag set never
contains an empty key — the external `structtag` parser rejects empty
keys — so looking up the empty fallback key always fails, exactly as a
second `avro` lookup after the first failed does: the inference (and
hence the rendered text or error) is identical.  `wfTags` states the
parser's nonempty-key guarantee for every tag set reachable in the
type. -/

mutual
/-- Nonempty-key guarantee of the external tag parser, stated for every
successfully parsed tag set reachable in a type descriptor. -/
def wfTags : GoType → Bool
  | .ptr _ e => wfTags e
  | .structT _ fs => wfFieldListTags fs
  | .slice _ e => wfTags e
  | .mapT _ _ e => wfTags e
  | .basic _ _ => true

def wfFieldListTags : List GoField → Bool
  | [] => true
  | f :: rest => wfFieldTags f && wfFieldListTags rest

def wfFieldTags : GoField → Bool
  | .mk _ ftags ftyp =>
    (match ftags with
     | .error _ => true
     | .ok tags => tags.all (fun tg => !(tg.key == ""))) && wfTags ftyp
end

/-- Helper: a tag set with no empty key never answers the empty-key
lookup. -/
theorem tagsGet_empty_key (tags : List Tag)
    (h : tags.all (fun tg => !(tg.key == "")) = true) : tagsGet tags "" = none := by
  induction tags with
  | nil => rfl
  | cons tg rest ih =>
    simp only [List.all_cons, Bool.and_eq_true, Bool.not_eq_true', beq_eq_false_iff_ne] at h
    simp only [tagsGet, List.find?_cons]
    have : (tg.key == "") = false := by simpa using h.1
    rw [this]
    exact ih (by simpa [List.all_eq_true] using h.2)

mutual
/-- Helper: with nonempty tag keys, inference with the empty fallback key
equals inference with the canonical key `avro` as fallback. -/
theorem inferSchema_default_fb (t : GoType) (ia va : Option (List String))
    (h : wfTags t = true) :
    inferSchema "" t ia va = inferSchema "avro" t ia va := by
  cases t with
  | ptr nm elem =>
    rw [inferSchema, inferSchema,
      inferSchema_default_fb elem none none (by simpa [wfTags] using h)]
  | structT nm fs =>
    rw [inferSchema, inferSchema,
      inferFieldList_default_fb fs (by simpa [wfTags] using h)]
  | slice nm elem =>
    cases ia with
    | some xs => rfl
    | none =>
      rw [inferSchema, inferSchema,
        inferSchema_default_fb elem none none (by simpa [wfTags] using h)]
  | mapT nm key elem =>
    by_cases hk : key.kindOf = Kind.kString
    · cases va with
      | some xs => rfl
      | none =>
        rw [inferSchema.eq_def, inferSchema.eq_def]
        simp only [hk, ne_eq, not_true_eq_false, if_false, ite_false]
        rw [inferSchema_default_fb elem none none (by simpa [wfTags] using h)]
    · rw [inferSchema.eq_def, inferSchema.eq_def]
      simp only [hk, ne_eq, not_false_eq_true, if_true, ite_true]
  | basic nm k => rfl

theorem inferField_default_fb (f : GoField) (h : wfFieldTags f = true) :
    inferField "" f = inferField "avro" f := by
  cases f with
  | mk fname ftags ftyp =>
    have hty : wfTags ftyp = true := by
      have h2 := h
      simp only [wfFieldTags, Bool.and_eq_true] at h2
      exact h2.2
    cases ftags with
    | error pe => rfl
    | ok tags =>
      have hkeys : tags.all (fun tg => !(tg.key == "")) = true := by
        have h2 := h
        simp only [wfFieldTags, Bool.and_eq_true] at h2
        exact h2.1
      rw [inferField.eq_def, inferField.eq_def]
      dsimp only
      cases htg : tagsGet tags "avro" with
      | some tg =>
        simp only [htg]
        by_cases hemp : (collectTypes tg.options).isEmpty
        · simp only [hemp, if_true]
          rw [inferSchema_default_fb ftyp _ _ hty]
        · simp only [hemp, Bool.false_eq_true, if_false]
      | none =>
        simp only [htg, tagsGet_empty_key tags hkeys]
        rw [inferSchema_default_fb ftyp none none hty]

theorem inferFieldList_default_fb (fs : List GoField)
    (h : wfFieldListTags fs = true) :
    inferFieldList "" fs = inferFieldList "avro" fs := by
  cases fs with
  | nil => rfl
  | cons f rest =>
    have h12 : wfFieldTags f = true ∧ wfFieldListTags rest = true := by
      simpa [wfFieldListTags, Bool.and_eq_true] using h
    rw [inferFieldList, inferFieldList, inferField_default_fb f h12.1,
      inferFieldList_default_fb rest h12.2]
end

/-- C9: for every input type whose parsed tag sets have only nonempty
keys (the guarantee of the external tag parser), calling the public
entry point with the empty fallback key produces the same result — the
same schema text or the same error — as calling it with the canonical
key `avro` as fallback. -/
theorem c9_empty_fallback_equivalent (v : GoType) (h : wfTags v = true) :
    InferSchema "" v = InferSchema "avro" v := by
  rw [InferSchema.eq_def, InferSchema.eq_def,
    inferSchema_default_fb v none none h]

/-- C9 (witness): the equivalence evaluated at a struct whose only field
carries a `json` tag. -/
theorem c9_empty_fallback_equivalent_witness :
    InferSchema "" (GoType.structT "A"
        [GoField.mk "B" (.ok [Tag.mk "json" "jb" []]) (GoType.basic "" Kind.kString)]) =
      InferSchema "avro" (GoType.structT "A"
        [GoField.mk "B" (.ok [Tag.mk "json" "jb" []]) (GoType.basic "" Kind.kString)]) :=
  c9_empty_fallback_equivalent _ rfl

/-! ## Claim C10

The `Name` attribute of `TypedSchema` carries no `omitempty`, so every
rendered node opens with a `name` attribute, even when the name is the
empty string; and `inferSchema` always sets the node's name to the
type's own reflect `Name()`, which is `""` for unnamed types (pointers,
slices, maps, anonymous structs). -/

/-- Helper: a successful `inferSchema` names its node by the type's own
reflect name. -/
theorem inferSchema_ok_name (fb : String) (t : GoType)
    (ia va : Option (List String)) (s : TypedSchema)
    (h : inferSchema fb t ia va = .ok s) : s.Name = t.name := by
  cases t with
  | ptr nm elem =>
    rw [inferSchema] at h
    cases hrec : inferSchema fb elem none none <;> rw [hrec] at h <;>
      simp only [Except.ok.injEq, reduceCtorEq] at h
    subst h; rfl
  | structT nm fs =>
    rw [inferSchema] at h
    cases hrec : inferFieldList fb fs <;> rw [hrec] at h <;>
      simp only [Except.ok.injEq, reduceCtorEq] at h
    subst h; rfl
  | slice nm elem =>
    cases ia with
    | some xs =>
      rw [inferSchema] at h
      simp only [Except.ok.injEq] at h
      subst h; rfl
    | none =>
      rw [inferSchema] at h
      cases hrec : inferSchema fb elem none none <;> rw [hrec] at h <;>
        simp only [Except.ok.injEq, reduceCtorEq] at h
      subst h; rfl
  | mapT nm key elem =>
    rw [inferSchema.eq_def] at h
    by_cases hk : key.kindOf = Kind.kString
    · simp only [hk, ne_eq, not_true_eq_false, if_false, ite_false] at h
      cases va with
      | some xs =>
        simp only [Except.ok.injEq] at h
        subst h; rfl
      | none =>
        cases hrec : inferSchema fb elem none none <;> rw [hrec] at h <;>
          simp only [Except.ok.injEq, reduceCtorEq] at h
        subst h; rfl
    · simp only [hk, ne_eq, not_false_eq_true, if_true, ite_true,
        reduceCtorEq] at h
  | basic nm k =>
    rw [inferSchema] at h
    cases hrec : inferType (GoType.basic nm k) <;> rw [hrec] at h <;>
      simp only [Except.ok.injEq, reduceCtorEq] at h
    subst h; rfl

/-- C10: every rendered schema node opens with a `name` attribute (the
`Name` attribute carries no `omitempty`), and inference always names a
node by the type's own reflect name — so for unnamed types (pointers,
slices, maps, anonymous structs), whose reflect name is the empty
string, the attribute is rendered as `"name":""` rather than omitted. -/
theorem c10_name_always_rendered :
    (∀ n : TypedSchema, ∃ rest : String,
        marshalSchema n = "\x7b\"name\":" ++ jsonStr n.Name ++ ",\"type\":" ++ rest) ∧
    (∀ (fb : String) (t : GoType) (ia va : Option (List String)) (s : TypedSchema),
        inferSchema fb t ia va = .ok s → s.Name = t.name) := by
  constructor
  · intro n
    cases n with
    | mk nm ty ts its it vs va fs =>
      refine ⟨marshalSVal ty ++
        ((if it.isNilV then "" else ",\"items\":" ++ marshalSVal it) ++
         ((if va.isNilV then "" else ",\"values\":" ++ marshalSVal va) ++
          ((if fs.isEmpty then ""
            else ",\"fields\":[" ++ marshalSchemaList fs ++ "]") ++ "\x7d"))), ?_⟩
      rw [marshalSchema]
      dsimp only [TypedSchema.Name]
      simp only [String.append_assoc]
  · intro fb t ia va s h
    exact inferSchema_ok_name fb t ia va s h

/-- C10 (witness): the rule evaluated at the node inferred for the
unnamed pointer type `*string`: its name is the empty string and its
rendering opens with an explicit empty `name` attribute. -/
theorem c10_name_always_rendered_witness :
    (∃ rest : String,
        marshalSchema (TypedSchema.mk ""
            (SVal.vList [SVal.vNode (TypedSchema.mk "" (SVal.vStr "string")
              [SVal.vStr "string"] [] SVal.vNil [] SVal.vNil []), SVal.vStr "null"])
            [SVal.vNode (TypedSchema.mk "" (SVal.vStr "string")
              [SVal.vStr "string"] [] SVal.vNil [] SVal.vNil []), SVal.vStr "null"]
            [] SVal.vNil [] SVal.vNil []) =
          "\x7b\"name\":" ++ jsonStr (TypedSchema.mk ""
            (SVal.vList [SVal.vNode (TypedSchema.mk "" (SVal.vStr "string")
              [SVal.vStr "string"] [] SVal.vNil [] SVal.vNil []), SVal.vStr "null"])
            [SVal.vNode (TypedSchema.mk "" (SVal.vStr "string")
              [SVal.vStr "string"] [] SVal.vNil [] SVal.vNil []), SVal.vStr "null"]
            [] SVal.vNil [] SVal.vNil []).Name ++ ",\"type\":" ++ rest) ∧
    (TypedSchema.mk ""
        (SVal.vList [SVal.vNode (TypedSchema.mk "" (SVal.vStr "string")
          [SVal.vStr "string"] [] SVal.vNil [] SVal.vNil []), SVal.vStr "null"])
        [SVal.vNode (TypedSchema.mk "" (SVal.vStr "string")
          [SVal.vStr "string"] [] SVal.vNil [] SVal.vNil []), SVal.vStr "null"]
        [] SVal.vNil [] SVal.vNil []).Name =
      (GoType.ptr "" (GoType.basic "" Kind.kString)).name :=
  ⟨c10_name_always_rendered.1 _,
   c10_name_always_rendered.2 "avro" (GoType.ptr "" (GoType.basic "" Kind.kString))
     none none _ rfl⟩
